import Mathlib

/-!
Verification of the Checkout & Vend Orchestration subsystem of the
wendor-placement repository (backend `cart.controller.ts`, the VMC mock
server, and the `vmc.ts` device link).

Shallow-embedding conventions:
* JavaScript numbers are modelled as `ℚ` (every value arising from
  `JSON.parse` of the data file is a finite decimal, hence rational; none of
  the verified code paths performs precision-sensitive float arithmetic).
* A raw record of `data.json` is `ProdRecord`.  Fields that
  `JSON.parse` may leave absent are `Option`-typed; `product_id : Option ℚ`
  holds `some q` when `Number(raw.product_id)` is the finite number `q` and
  `none` when it is `NaN` (a `NaN` id compares unequal to everything under
  `===`, which the `Option` mismatch reproduces, and is skipped by the
  `Number.isFinite` guard in `confirmCheckout`'s index building).
  With `shelf_life_count : Option ℚ`, `Number(item.shelf_life_count ?? 0)`
  becomes `Option.getD · 0`, which is always finite, so the source's
  `!Number.isFinite(...)` guards never fire in the model.
* The in-memory cart is a JavaScript `Map<number, number>`; it is modelled
  as an insertion-ordered association list `Cart` with `mapGet` / `mapSet`
  reproducing `Map.get` / `Map.set` (update-in-place keeps the position of
  an existing key, a fresh key is appended).
* Express handlers become pure functions from the mutable state they touch
  to a reply plus the successor state; a handler whose source performs no
  mutation returns its state argument unchanged.
-/

namespace Wendor

/-- A raw product record of `data.json` as the backend reads it
(`JSON.parse` of the flat file).  Only the fields the verified handlers
consult are kept; `active` models an arbitrary extra field of the record
(the spec's data model names it, the backend never reads it). -/
structure ProdRecord where
  product_id : Option ℚ
  shelf_life_count : Option ℚ
  active : Option Bool
  product_name : String
  product_price : ℚ
deriving DecidableEq, Repr

/-- The in-memory cart `Map<number, number>` (productId → quantity) as an
insertion-ordered association list. -/
abbrev Cart := List (ℚ × ℚ)

/-- `Map.get k`: the value stored at key `k`, if any. -/
def mapGet (m : Cart) (k : ℚ) : Option ℚ :=
  (m.find? (fun e => e.1 = k)).map (·.2)

/-- `Map.set k v`: overwrite in place when the key is present (its position
is kept), append otherwise. -/
def mapSet (m : Cart) (k v : ℚ) : Cart :=
  if m.any (fun e => e.1 = k) then
    m.map (fun e => if e.1 = k then (k, v) else e)
  else
    m ++ [(k, v)]

/-- Reply of the `POST /api/cart/add` handler, mirroring the JSON payloads
of `addToCart` in `cart.controller.ts`. -/
inductive AddReply where
  /-- 400 `Invalid productId or quantity`. -/
  | invalidRequest
  /-- 404 `Product <id> not found`. -/
  | notFound (productId : ℚ)
  /-- 400 `INSUFFICIENT_STOCK` with the fields of the error payload. -/
  | insufficientStock (productId available inCart requested : ℚ)
  /-- 200 `{ok: true, items}` — the full cart snapshot. -/
  | ok (items : Cart)
deriving DecidableEq, Repr

/-- `addToCart` (`cart.controller.ts` lines 28–62).  `productId` and
`quantity` are the request-body fields (`none` = absent or non-numeric).
The guard `!productId || !Number.isFinite(productId) || !quantity ||
!Number.isFinite(quantity) || quantity <= 0` rejects an absent or zero
`productId` and an absent, zero or negative `quantity`; on a rational input
`Number.isFinite` always holds.  `data.findIndex(p => Number(p.product_id)
=== Number(productId))` is the first record whose id parses to `productId`.
Returns the reply together with the successor cart. -/
def addToCart (data : List ProdRecord) (cart : Cart)
    (productId quantity : Option ℚ) : AddReply × Cart :=
  match productId, quantity with
  | some pid, some q =>
    if pid = 0 ∨ q ≤ 0 then (.invalidRequest, cart)
    else
      match data.find? (fun r => r.product_id = some pid) with
      | none => (.notFound pid, cart)
      | some r =>
        let available := r.shelf_life_count.getD 0
        let inCart := (mapGet cart pid).getD 0
        if available < inCart + q then
          (.insufficientStock pid available inCart q, cart)
        else
          let newCart := mapSet cart pid (inCart + q)
          (.ok newCart, newCart)
  | _, _ => (.invalidRequest, cart)

/-- `clearCart` (`cart.controller.ts` lines 64–67): empties the cart. -/
def clearCart (_cart : Cart) : Cart := []

/-! ## confirmCheckout (`cart.controller.ts` lines 93–161) -/

/-- The mutable state `confirmCheckout` touches: the parsed contents of the
data file and the in-memory cart. -/
structure Sys where
  data : List ProdRecord
  cart : Cart
deriving DecidableEq, Repr

/-- One `data.forEach` step of the index-map construction at lines 100–104:
position `i` overwrites the association for its (finite) parsed id. -/
def idStep (data : List ProdRecord) (pid : ℚ) (acc : Option ℕ) (i : ℕ) : Option ℕ :=
  match data[i]? with
  | some r => if r.product_id = some pid then some i else acc
  | none => acc

/-- The index map built at lines 100–104: `data.forEach((p, idx) => { const
idNum = Number(p.product_id); if (Number.isFinite(idNum))
idToIndex.set(idNum, idx); })` followed by `idToIndex.get(pid)`.  A later
record with the same id overwrites an earlier one (`Map.set` last-wins). -/
def idToIndexGet (data : List ProdRecord) (pid : ℚ) : Option ℕ :=
  (List.range data.length).foldl (idStep data pid) none

/-- `Number(data[i].shelf_life_count ?? 0)`: the stock stored at position
`i`, defaulting to `0` when the field (or the position) is absent. -/
def stockAt (data : List ProdRecord) (i : ℕ) : ℚ :=
  ((data[i]?).bind (·.shelf_life_count)).getD 0

/-- The live stock `confirmCheckout` reads for product `pid`: the
`shelf_life_count` of the record `idToIndex` resolves `pid` to. -/
def stockOf (data : List ProdRecord) (pid : ℚ) : ℚ :=
  match idToIndexGet data pid with
  | some i => stockAt data i
  | none => 0

/-- Error replies of `confirmCheckout`. -/
inductive ConfirmErr where
  /-- 400 `Product <id> not found`. -/
  | notFound (productId : ℚ)
  /-- 400 `Insufficient stock for <id>` with `productId`, `available`,
  `requested`. -/
  | insufficientStock (productId available requested : ℚ)
deriving DecidableEq, Repr

/-- The validation loop (lines 107–117): walk the cart entries in insertion
order; the first entry whose product is missing, or whose live stock is
below its quantity, aborts the whole confirm with its error. -/
def validateCart (data : List ProdRecord) : Cart → Option ConfirmErr
  | [] => none
  | e :: rest =>
    match idToIndexGet data e.1 with
    | none => some (.notFound e.1)
    | some i =>
      if stockAt data i < e.2 then some (.insufficientStock e.1 (stockAt data i) e.2)
      else validateCart data rest

/-- One step of the deduction loop (lines 120–125):
`item.shelf_life_count = Math.max(0, current - qty)` at position `i`. -/
def applyDeduct (d : List ProdRecord) (i : ℕ) (qty : ℚ) : List ProdRecord :=
  match d[i]? with
  | some r => d.set i { r with shelf_life_count := some (max 0 (r.shelf_life_count.getD 0 - qty)) }
  | none => d

/-- One iteration of the deduction loop: deduct entry `e` at the position
the pre-deduction index map resolves it to.  The `none` branch is
unreachable once validation has passed (the source uses the non-null
assertion `idToIndex.get(productId)!`). -/
def deductStep (data : List ProdRecord) (d : List ProdRecord) (e : ℚ × ℚ) :
    List ProdRecord :=
  match idToIndexGet data e.1 with
  | some i => applyDeduct d i e.2
  | none => d

/-- The full deduction loop over all cart entries (lines 120–125). -/
def deductAll (data : List ProdRecord) (entries : Cart) : List ProdRecord :=
  entries.foldl (deductStep data) data

/-- `for (let i = 0; i < qty; i++)`: the number of iterations of the inner
vend-expansion loop for a (possibly non-integral) quantity `qty`. -/
def jsLoopCount (qty : ℚ) : ℕ := (Int.ceil qty).toNat

/-- Lines 134–137: expand the cart entries into the flat `vendItems` list,
`qty` consecutive copies of each product id. -/
def vendExpand (entries : Cart) : List ℚ :=
  entries.flatMap (fun e => List.replicate (jsLoopCount e.2) e.1)

/-- Observable events of one `confirmCheckout` execution, in source order.
`sendVMC` marks the `sendToVMC(vendMessage)` call at line 143 — the
dispense-submission attempt (whether or not the link delivers it; the
`setTimeout` retry at line 147 is a re-attempt of the same submission). -/
inductive CEvent where
  /-- `fs.readFile(DATA_FILE_PATH)` (line 96). -/
  | readFile
  /-- `fs.writeFile(DATA_FILE_PATH, ...)` (line 128). -/
  | writeFile
  /-- `cart.items.clear()` (line 139). -/
  | clearCart
  /-- `sendToVMC({type: 'vend', items})` (line 143). -/
  | sendVMC (items : List ℚ)
deriving DecidableEq, Repr

/-- Reply of `confirmCheckout`. -/
inductive ConfirmReply where
  | err (e : ConfirmErr)
  /-- 200 `{ok: true, checkedOut, vmc: {sent, items}}`; `vendCount` is the
  `items` field of the `vmc` object (`vendItems.length`). -/
  | ok (checkedOut : Cart) (vendCount : ℕ)
deriving DecidableEq, Repr

/-- `confirmCheckout` (lines 93–161).  A validation failure returns before
any mutation (the only event so far is the file read); on success the
source deducts, persists, snapshots the entries, builds `vendItems`,
clears the cart (line 139) and only then calls `sendToVMC` (line 143). -/
def confirmCheckout (s : Sys) : ConfirmReply × Sys × List CEvent :=
  match validateCart s.data s.cart with
  | some e => (.err e, s, [.readFile])
  | none =>
    let newData := deductAll s.data s.cart
    let vendItems := vendExpand s.cart
    (.ok s.cart vendItems.length, ⟨newData, []⟩,
      [.readFile, .writeFile, .clearCart, .sendVMC vendItems])

/-- `true` iff every `clearCart` event in the trace is preceded by some
`sendVMC` event — the ordering C4 claims. -/
def clearedOnlyAfterSendAux : Bool → List CEvent → Bool
  | _, [] => true
  | _, .sendVMC _ :: rest => clearedOnlyAfterSendAux true rest
  | seenSend, .clearCart :: rest => seenSend && clearedOnlyAfterSendAux seenSend rest
  | seenSend, _ :: rest => clearedOnlyAfterSendAux seenSend rest

/-- Whether the cart is cleared only after a dispense submission attempt. -/
def clearedOnlyAfterSend (tr : List CEvent) : Bool :=
  clearedOnlyAfterSendAux false tr

/-! ## prepareCheckout (`cart.controller.ts` lines 70–90) -/

/-- A catalog entry as `loadProducts()` (in `jsonData.ts`) returns it:
`id = Number(raw.product_id)` (`none` models `NaN`), `price` already
defaulted to a finite number by `toJsonProduct`. -/
structure JsonProduct where
  id : Option ℚ
  name : String
  price : ℚ
deriving DecidableEq, Repr

/-- One line item of the prepare response (lines 73–82). -/
structure PrepItem where
  productId : ℚ
  quantity : ℚ
  name : String
  price : ℚ
  amount : ℚ
deriving DecidableEq, Repr

/-- The 200 response of `prepareCheckout`. -/
structure PrepReply where
  orderId : String
  items : List PrepItem
  total : ℚ
deriving DecidableEq, Repr

/-- Build one line item: `products.find(pp => pp.id === productId)`, with
`?? ''` / `?? 0` defaults when the product is absent. -/
def prepLine (products : List JsonProduct) (e : ℚ × ℚ) : PrepItem :=
  let p := products.find? (fun pp => pp.id = some e.1)
  { productId := e.1
    quantity := e.2
    name := (p.map (·.name)).getD ""
    price := (p.map (·.price)).getD 0
    amount := ((p.map (·.price)).getD 0) * e.2 }

/-- `prepareCheckout` (lines 70–90): maps the cart to priced line items,
sums the total, stamps `orderId = order_<Date.now()>`.  The source contains
no statement that writes the cart or the data file, so the handler returns
its state argument unchanged.  `products` is the `loadProducts()` result
and `now` the value of `Date.now()` at the call. -/
def prepareCheckout (products : List JsonProduct) (s : Sys) (now : ℕ) :
    PrepReply × Sys :=
  let items := s.cart.map (prepLine products)
  let total := items.foldl (fun acc it => acc + it.amount) 0
  ({ orderId := "order_" ++ toString now, items := items, total := total }, s)

/-- One invocation of `prepareCheckout`: `callId` distinguishes distinct
calls, `now` is the `Date.now()` millisecond the call observes.  Two
distinct calls in rapid succession may observe the same `now`. -/
structure PrepareCall where
  callId : ℕ
  now : ℕ
deriving DecidableEq, Repr

/-- `prepareCheckout` as a function of the invocation. -/
def prepareAt (products : List JsonProduct) (s : Sys) (c : PrepareCall) :
    PrepReply × Sys :=
  prepareCheckout products s c.now

/-! ## Vend Controller (VMC mock server, `vmc-server` source) -/

/-- `vendingState.status`. -/
inductive VStatus where
  | idle
  | vending
deriving DecidableEq, Repr

/-- The VMC mock's mutable state (`vendingState`): `status`,
`currentItems`, `startTime` (the timers are environmental and carry no
data the accept/reject decision reads). -/
structure VmcState where
  status : VStatus
  currentItems : List ℚ
  startTime : Option ℕ
deriving DecidableEq, Repr

/-- Reply of the WebSocket `vend` handler (`type: 'vend-response'`). -/
inductive WsVendReply where
  /-- `success: false, message: 'Invalid items array. ...'`. -/
  | invalidItems
  /-- `success: false, message: '... busy', currentItems`. -/
  | busy (currentItems : List ℚ)
  /-- `success: true, message: 'Vending started', items, estimatedTime`. -/
  | started (items : List ℚ) (estimatedTime : ℕ)
deriving DecidableEq, Repr

/-- The WebSocket `vend` message handler of the VMC mock (`data.type ===
'vend'` branch): reject a non-array/empty `items`, reject with busy while
`status === 'vending'`, otherwise start a cycle (`status = 'vending'`,
`currentItems = items`, `startTime = Date.now()`). -/
def handleVendWS (st : VmcState) (items : Option (List ℚ)) (now : ℕ) :
    WsVendReply × VmcState :=
  match items with
  | none => (.invalidItems, st)
  | some its =>
    if its.isEmpty then (.invalidItems, st)
    else if st.status = .vending then (.busy st.currentItems, st)
    else (.started its 5000, ⟨.vending, its, some now⟩)

/-- Reply of `POST /vend` on the VMC mock. -/
inductive HttpVendReply where
  /-- 400 `Invalid items array`. -/
  | invalidItems
  /-- 409 `Vending machine is currently busy` with `currentItems`. -/
  | busy (currentItems : List ℚ)
  /-- 200 `Vending started` with `items`, `estimatedTime`. -/
  | started (items : List ℚ) (estimatedTime : ℕ)
deriving DecidableEq, Repr

/-- The HTTP `/vend` handler of the VMC mock: same guards and transition as
the WebSocket path. -/
def handleVendHTTP (st : VmcState) (items : Option (List ℚ)) (now : ℕ) :
    HttpVendReply × VmcState :=
  match items with
  | none => (.invalidItems, st)
  | some its =>
    if its.isEmpty then (.invalidItems, st)
    else if st.status = .vending then (.busy st.currentItems, st)
    else (.started its 5000, ⟨.vending, its, some now⟩)

/-! ## Basic lemmas about the cart map -/

theorem mapGet_mapSet_self (m : Cart) (k v : ℚ) : mapGet (mapSet m k v) k = some v := by
  unfold mapSet
  split
  case isTrue h =>
    induction m with
    | nil => simp at h
    | cons e rest ih =>
      by_cases he : e.1 = k
      · simp [mapGet, List.find?, he]
      · have hrest : rest.any (fun e => decide (e.1 = k)) = true := by
          simpa [List.any_cons, he] using h
        simpa [mapGet, List.find?, he] using ih hrest
  case isFalse h =>
    induction m with
    | nil => simp [mapGet, List.find?]
    | cons e rest ih =>
      have he : ¬ e.1 = k := by
        intro hk
        exact h (by simp [List.any_cons, hk])
      have hrest : ¬ rest.any (fun e => decide (e.1 = k)) = true := by
        intro hk
        exact h (by simp [List.any_cons, hk])
      simpa [mapGet, List.find?, he] using ih hrest

theorem mapSet_keys_of_any (m : Cart) (k v : ℚ)
    (h : m.any (fun e => e.1 = k)) :
    (mapSet m k v).map Prod.fst = m.map Prod.fst := by
  unfold mapSet
  rw [if_pos h, List.map_map]
  refine List.map_congr_left ?_
  intro e he
  by_cases hek : e.1 = k
  · simp [Function.comp, hek]
  · simp [Function.comp, hek]

theorem mapSet_keys_nodup (m : Cart) (k v : ℚ)
    (h : (m.map Prod.fst).Nodup) : ((mapSet m k v).map Prod.fst).Nodup := by
  by_cases hany : m.any (fun e => e.1 = k)
  · rw [mapSet_keys_of_any m k v hany]
    exact h
  · unfold mapSet
    rw [if_neg hany, List.map_append]
    rw [List.nodup_append]
    refine ⟨h, List.nodup_singleton k, ?_⟩
    intro a ha hak
    rw [List.map_singleton, List.mem_singleton] at hak
    subst hak
    obtain ⟨e, he, hek⟩ := List.mem_map.mp ha
    exact hany (List.any_eq_true.mpr ⟨e, he, by simp [hek]⟩)

theorem addToCart_cart_cases (data : List ProdRecord) (cart : Cart)
    (productId quantity : Option ℚ) :
    (addToCart data cart productId quantity).2 = cart ∨
    ∃ k v, (addToCart data cart productId quantity).2 = mapSet cart k v := by
  cases productId with
  | none => exact Or.inl rfl
  | some pid =>
    cases quantity with
    | none => exact Or.inl rfl
    | some q =>
      simp only [addToCart]
      split
      · exact Or.inl rfl
      · split
        · exact Or.inl rfl
        · split
          · exact Or.inl rfl
          · exact Or.inr ⟨pid, _, rfl⟩

/-- The `Nodup` cart-key invariant C3 and C10 assume is maintained by the
source's `Map<number, number>`: `addToCart` (the only operation that grows
the cart) preserves it, and `clearCart`/confirm leave the empty cart. -/
theorem addToCart_cart_nodup (data : List ProdRecord) (cart : Cart)
    (productId quantity : Option ℚ)
    (h : (cart.map Prod.fst).Nodup) :
    ((addToCart data cart productId quantity).2.map Prod.fst).Nodup := by
  rcases addToCart_cart_cases data cart productId quantity with hc | ⟨k, v, hc⟩ <;> rw [hc]
  · exact h
  · exact mapSet_keys_nodup cart k v h

/-! ## Lemmas about the index map -/

theorem idStep_foldl_spec (data : List ProdRecord) (pid : ℚ) (l : List ℕ) :
    ∀ (acc : Option ℕ),
      (∀ j, acc = some j → ∃ r, data[j]? = some r ∧ r.product_id = some pid) →
      ∀ i, l.foldl (idStep data pid) acc = some i →
      ∃ r, data[i]? = some r ∧ r.product_id = some pid := by
  induction l with
  | nil => exact fun acc hacc i h => hacc i h
  | cons a t ih =>
    intro acc hacc i h
    rw [List.foldl_cons] at h
    refine ih _ ?_ i h
    intro j hj
    unfold idStep at hj
    rcases hd : data[a]? with _ | r <;> rw [hd] at hj <;> dsimp only at hj
    · exact hacc j hj
    · by_cases hr : r.product_id = some pid
      · rw [if_pos hr] at hj
        obtain rfl : a = j := Option.some.inj hj
        exact ⟨r, hd, hr⟩
      · rw [if_neg hr] at hj
        exact hacc j hj

theorem idToIndexGet_spec (data : List ProdRecord) (pid : ℚ) (i : ℕ)
    (h : idToIndexGet data pid = some i) :
    ∃ r, data[i]? = some r ∧ r.product_id = some pid :=
  idStep_foldl_spec data pid (List.range data.length) none (by intro j hj; cases hj) i h

theorem idToIndexGet_lt (data : List ProdRecord) (pid : ℚ) (i : ℕ)
    (h : idToIndexGet data pid = some i) : i < data.length := by
  obtain ⟨r, hr, _⟩ := idToIndexGet_spec data pid i h
  by_contra hge
  push_neg at hge
  rw [List.getElem?_eq_none hge] at hr
  cases hr

theorem idToIndexGet_inj (data : List ProdRecord) (p₁ p₂ : ℚ) (i : ℕ)
    (h₁ : idToIndexGet data p₁ = some i) (h₂ : idToIndexGet data p₂ = some i) :
    p₁ = p₂ := by
  obtain ⟨r₁, hd₁, hp₁⟩ := idToIndexGet_spec data p₁ i h₁
  obtain ⟨r₂, hd₂, hp₂⟩ := idToIndexGet_spec data p₂ i h₂
  rw [hd₁] at hd₂
  obtain rfl : r₁ = r₂ := Option.some.inj hd₂
  rw [hp₁] at hp₂
  exact Option.some.inj hp₂

theorem idToIndexGet_congr (d₁ d₂ : List ProdRecord) (pid : ℚ)
    (hlen : d₁.length = d₂.length)
    (hid : ∀ j : ℕ, (d₁[j]?).map (·.product_id) = (d₂[j]?).map (·.product_id)) :
    idToIndexGet d₁ pid = idToIndexGet d₂ pid := by
  unfold idToIndexGet
  rw [hlen]
  apply List.foldl_ext
  intro acc a _
  unfold idStep
  have hA := hid a
  rcases h₁ : d₁[a]? with _ | r₁
  · rcases h₂ : d₂[a]? with _ | r₂
    · rfl
    · rw [h₁, h₂] at hA
      exact absurd hA (by simp)
  · rcases h₂ : d₂[a]? with _ | r₂
    · rw [h₁, h₂] at hA
      exact absurd hA (by simp)
    · rw [h₁, h₂] at hA
      have hpp : r₁.product_id = r₂.product_id := by simpa using hA
      dsimp only
      rw [hpp]

/-! ## Lemmas about the deduction loop -/

theorem applyDeduct_eq_of_none (d : List ProdRecord) (i : ℕ) (q : ℚ)
    (h : d[i]? = none) : applyDeduct d i q = d := by
  unfold applyDeduct
  rw [h]

theorem applyDeduct_eq_of_some (d : List ProdRecord) (i : ℕ) (q : ℚ)
    (r : ProdRecord) (h : d[i]? = some r) :
    applyDeduct d i q =
      d.set i { r with shelf_life_count := some (max 0 (r.shelf_life_count.getD 0 - q)) } := by
  unfold applyDeduct
  rw [h]

theorem applyDeduct_length (d : List ProdRecord) (i : ℕ) (q : ℚ) :
    (applyDeduct d i q).length = d.length := by
  rcases h : d[i]? with _ | r
  · rw [applyDeduct_eq_of_none d i q h]
  · rw [applyDeduct_eq_of_some d i q r h]
    exact List.length_set ..

theorem getElem?_applyDeduct_ne (d : List ProdRecord) (i j : ℕ) (q : ℚ)
    (hne : i ≠ j) : (applyDeduct d i q)[j]? = d[j]? := by
  rcases h : d[i]? with _ | r
  · rw [applyDeduct_eq_of_none d i q h]
  · rw [applyDeduct_eq_of_some d i q r h]
    exact List.getElem?_set_ne hne

theorem product_id_applyDeduct (d : List ProdRecord) (i j : ℕ) (q : ℚ) :
    ((applyDeduct d i q)[j]?).map (·.product_id) = (d[j]?).map (·.product_id) := by
  by_cases hji : i = j
  · subst hji
    rcases h : d[i]? with _ | r
    · rw [applyDeduct_eq_of_none d i q h, h]
    · have hlt : i < d.length := by
        by_contra hge
        push_neg at hge
        rw [List.getElem?_eq_none hge] at h
        cases h
      rw [applyDeduct_eq_of_some d i q r h, List.getElem?_set_eq_of_lt _ hlt]
      rfl
  · rw [getElem?_applyDeduct_ne d i j q hji]

theorem stockAt_applyDeduct_self (d : List ProdRecord) (i : ℕ) (q : ℚ)
    (hlt : i < d.length) :
    stockAt (applyDeduct d i q) i = max 0 (stockAt d i - q) := by
  rcases h : d[i]? with _ | r
  · rw [List.getElem?_eq_none_iff] at h
    omega
  · rw [applyDeduct_eq_of_some d i q r h]
    unfold stockAt
    rw [List.getElem?_set_eq_of_lt _ hlt, h]
    rfl

theorem stockAt_applyDeduct_ne (d : List ProdRecord) (i j : ℕ) (q : ℚ)
    (hne : i ≠ j) : stockAt (applyDeduct d i q) j = stockAt d j := by
  unfold stockAt
  rw [getElem?_applyDeduct_ne d i j q hne]

theorem deductStep_eq_of_none (data d : List ProdRecord) (e : ℚ × ℚ)
    (h : idToIndexGet data e.1 = none) : deductStep data d e = d := by
  unfold deductStep
  rw [h]

theorem deductStep_eq_of_some (data d : List ProdRecord) (e : ℚ × ℚ) (i : ℕ)
    (h : idToIndexGet data e.1 = some i) :
    deductStep data d e = applyDeduct d i e.2 := by
  unfold deductStep
  rw [h]

theorem foldl_deductStep_length (data : List ProdRecord) (es : Cart) :
    ∀ d : List ProdRecord, (es.foldl (deductStep data) d).length = d.length := by
  induction es with
  | nil => exact fun d => rfl
  | cons e t ih =>
    intro d
    rw [List.foldl_cons, ih]
    rcases h : idToIndexGet data e.1 with _ | i
    · rw [deductStep_eq_of_none data d e h]
    · rw [deductStep_eq_of_some data d e i h]
      exact applyDeduct_length ..

theorem stockAt_foldl_untouched (data : List ProdRecord) (es : Cart) (i : ℕ)
    (h : ∀ e ∈ es, idToIndexGet data e.1 ≠ some i) :
    ∀ d : List ProdRecord, stockAt (es.foldl (deductStep data) d) i = stockAt d i := by
  induction es with
  | nil => exact fun d => rfl
  | cons e t ih =>
    intro d
    rw [List.foldl_cons, ih (fun x hx => h x (List.mem_cons_of_mem e hx))]
    rcases hj : idToIndexGet data e.1 with _ | j
    · rw [deductStep_eq_of_none data d e hj]
    · have hji : j ≠ i := fun hh => h e (List.mem_cons_self e t) (hh ▸ hj)
      rw [deductStep_eq_of_some data d e j hj]
      exact stockAt_applyDeduct_ne d j i e.2 hji

theorem stockAt_foldl_hit (data : List ProdRecord) (es₁ es₂ : Cart)
    (p q : ℚ) (i : ℕ) (d : List ProdRecord)
    (hd : d.length = data.length)
    (hi : idToIndexGet data p = some i)
    (h₁ : ∀ e ∈ es₁, idToIndexGet data e.1 ≠ some i)
    (h₂ : ∀ e ∈ es₂, idToIndexGet data e.1 ≠ some i) :
    stockAt ((es₁ ++ (p, q) :: es₂).foldl (deductStep data) d) i =
      max 0 (stockAt d i - q) := by
  rw [List.foldl_append, List.foldl_cons, stockAt_foldl_untouched data es₂ i h₂]
  rw [deductStep_eq_of_some data _ (p, q) i hi]
  have hlt : i < (es₁.foldl (deductStep data) d).length := by
    rw [foldl_deductStep_length, hd]
    exact idToIndexGet_lt data p i hi
  rw [stockAt_applyDeduct_self _ i q hlt, stockAt_foldl_untouched data es₁ i h₁ d]

theorem stockAt_deductAll (data : List ProdRecord) (entries : Cart)
    (hn : (entries.map Prod.fst).Nodup) (p q : ℚ) (i : ℕ)
    (hm : (p, q) ∈ entries) (hi : idToIndexGet data p = some i) :
    stockAt (deductAll data entries) i = max 0 (stockAt data i - q) := by
  obtain ⟨es₁, es₂, rfl⟩ := List.append_of_mem hm
  rw [List.map_append, List.map_cons] at hn
  rw [List.nodup_append] at hn
  obtain ⟨-, hn₂, hdisj⟩ := hn
  have hp₁ : p ∉ es₁.map Prod.fst := fun hp =>
    hdisj hp (List.mem_cons_self p _)
  have hp₂ : p ∉ es₂.map Prod.fst := (List.nodup_cons.mp hn₂).1
  have h₁ : ∀ e ∈ es₁, idToIndexGet data e.1 ≠ some i := by
    intro e he heq
    exact hp₁ (idToIndexGet_inj data e.1 p i heq hi ▸ List.mem_map_of_mem Prod.fst he)
  have h₂ : ∀ e ∈ es₂, idToIndexGet data e.1 ≠ some i := by
    intro e he heq
    exact hp₂ (idToIndexGet_inj data e.1 p i heq hi ▸ List.mem_map_of_mem Prod.fst he)
  exact stockAt_foldl_hit data es₁ es₂ p q i data rfl hi h₁ h₂

theorem product_id_foldl_deductStep (data : List ProdRecord) (es : Cart) (j : ℕ) :
    ∀ d : List ProdRecord,
      ((es.foldl (deductStep data) d)[j]?).map (·.product_id) =
        (d[j]?).map (·.product_id) := by
  induction es with
  | nil => exact fun d => rfl
  | cons e t ih =>
    intro d
    rw [List.foldl_cons, ih]
    rcases h : idToIndexGet data e.1 with _ | i
    · rw [deductStep_eq_of_none data d e h]
    · rw [deductStep_eq_of_some data d e i h]
      exact product_id_applyDeduct d i j e.2

theorem idToIndexGet_deductAll (data : List ProdRecord) (entries : Cart) (pid : ℚ) :
    idToIndexGet (deductAll data entries) pid = idToIndexGet data pid :=
  idToIndexGet_congr _ _ pid (foldl_deductStep_length data entries data)
    (fun j => product_id_foldl_deductStep data entries j data)

/-! ## Lemmas about the validation loop -/

theorem validateCart_none_spec (data : List ProdRecord) (es : Cart)
    (h : validateCart data es = none) :
    ∀ e ∈ es, ∃ i, idToIndexGet data e.1 = some i ∧ e.2 ≤ stockAt data i := by
  induction es with
  | nil => intro e he; cases he
  | cons hd t ih =>
    intro e he
    unfold validateCart at h
    rcases hidx : idToIndexGet data hd.1 with _ | i <;> rw [hidx] at h <;>
      dsimp only at h
    · cases h
    · by_cases hlt : stockAt data i < hd.2
      · rw [if_pos hlt] at h; cases h
      · rw [if_neg hlt] at h
        rcases List.mem_cons.mp he with rfl | ht
        · exact ⟨i, hidx, not_lt.mp hlt⟩
        · exact ih h e ht

theorem validateCart_insufficient (data : List ProdRecord) (es : Cart)
    (hres : ∀ e ∈ es, (idToIndexGet data e.1).isSome)
    (hbad : ∃ e ∈ es, stockOf data e.1 < e.2) :
    ∃ p q, (p, q) ∈ es ∧ stockOf data p < q ∧
      validateCart data es = some (.insufficientStock p (stockOf data p) q) := by
  induction es with
  | nil => obtain ⟨e, he, -⟩ := hbad; cases he
  | cons hd t ih =>
    have hh := hres hd (List.mem_cons_self hd t)
    rcases hidx : idToIndexGet data hd.1 with _ | i
    · rw [hidx] at hh; cases hh
    · have hstock : stockOf data hd.1 = stockAt data i := by
        unfold stockOf
        rw [hidx]
      by_cases hlt : stockAt data i < hd.2
      · refine ⟨hd.1, hd.2, List.mem_cons_self hd t, hstock ▸ hlt, ?_⟩
        unfold validateCart
        rw [hidx]
        dsimp only
        rw [if_pos hlt, hstock]
      · obtain ⟨p, q, hm, hp, hv⟩ := by
          refine ih (fun e he => hres e (List.mem_cons_of_mem hd he)) ?_
          obtain ⟨e, he, hbe⟩ := hbad
          rcases List.mem_cons.mp he with rfl | ht
          · rw [hstock] at hbe
            exact absurd hbe hlt
          · exact ⟨e, ht, hbe⟩
        refine ⟨p, q, List.mem_cons_of_mem hd hm, hp, ?_⟩
        unfold validateCart
        rw [hidx]
        dsimp only
        rw [if_neg hlt, hv]

/-! ## Claim theorems: cart manager and checkout protocol (easy cases) -/

theorem jsLoopCount_natCast (n : ℕ) : jsLoopCount (n : ℚ) = n := by
  unfold jsLoopCount
  rw [Int.ceil_natCast]
  simp

theorem vendExpand_natCast (cartN : List (ℚ × ℕ)) :
    vendExpand (cartN.map (fun e => (e.1, (e.2 : ℚ)))) =
      cartN.flatMap (fun e => List.replicate e.2 e.1) := by
  induction cartN with
  | nil => rfl
  | cons e t ih =>
    simp only [List.map_cons, vendExpand, List.flatMap_cons] at ih ⊢
    rw [ih, jsLoopCount_natCast]

/-- Claim C1: if every cart line's product resolves in the data file and
some line's reserved quantity exceeds the live stock read at confirm time,
`confirmCheckout` fails with the insufficient-stock error naming an
offending product (with its live stock as `available`), the system state —
every record of the data file and the cart — is exactly as before the
call, and no write, cart-clear or dispense submission happens (the only
event of the execution is the initial file read). -/
theorem confirm_insufficient_no_deduction (s : Sys)
    (hres : ∀ e ∈ s.cart, (idToIndexGet s.data e.1).isSome)
    (hbad : ∃ e ∈ s.cart, stockOf s.data e.1 < e.2) :
    ∃ p q, (p, q) ∈ s.cart ∧ stockOf s.data p < q ∧
      confirmCheckout s =
        (.err (.insufficientStock p (stockOf s.data p) q), s, [.readFile]) := by
  obtain ⟨p, q, hm, hlt, hval⟩ := validateCart_insufficient s.data s.cart hres hbad
  refine ⟨p, q, hm, hlt, ?_⟩
  unfold confirmCheckout
  rw [hval]

/-- Witness for `confirm_insufficient_no_deduction`: the spec scenario —
stock of product 9 is 3, the cart reserves 5 — fails with
`InsufficientStock{productId: 9, available: 3, requested: 5}` and leaves
the stock at 3 and the cart at `{9: 5}`. -/
theorem confirm_insufficient_no_deduction_witness :
    confirmCheckout ⟨[⟨some 9, some 3, none, "Pepsi", 25⟩], [(9, 5)]⟩ =
      (.err (.insufficientStock 9 3 5),
       ⟨[⟨some 9, some 3, none, "Pepsi", 25⟩], [(9, 5)]⟩, [.readFile]) := by
  obtain ⟨p, q, hm, hlt, hc⟩ := confirm_insufficient_no_deduction
      ⟨[⟨some 9, some 3, none, "Pepsi", 25⟩], [(9, 5)]⟩
      (by
        intro e he
        rw [List.mem_singleton] at he
        subst he
        norm_num [idToIndexGet, idStep, List.range_succ])
      ⟨(9, 5), List.mem_singleton.mpr rfl,
        by norm_num [stockOf, idToIndexGet, idStep, stockAt, List.range_succ]⟩
  rw [List.mem_singleton] at hm
  have hp : p = 9 := congrArg Prod.fst hm
  have hq : q = 5 := congrArg Prod.snd hm
  subst hp
  subst hq
  have hst : stockOf [⟨some 9, some 3, none, "Pepsi", 25⟩] 9 = 3 := by
    norm_num [stockOf, idToIndexGet, idStep, stockAt, List.range_succ]
  rw [hst] at hc
  exact hc

/-- Claim C2: with a valid request (`productId` present and nonzero,
`quantity` present and positive) and an existing product, `addToCart`
fails with the `INSUFFICIENT_STOCK` payload — carrying `available`,
`inCart` and `requested` — exactly when the quantity already in the cart
plus the requested quantity exceeds the live stock of the first matching
record; otherwise it increments that product's cart quantity by the
requested amount and returns the full updated cart snapshot. -/
theorem addToCart_stock_check (data : List ProdRecord) (cart : Cart)
    (pid q : ℚ) (r : ProdRecord)
    (hpid : pid ≠ 0) (hq : 0 < q)
    (hfind : data.find? (fun rr => rr.product_id = some pid) = some r) :
    (r.shelf_life_count.getD 0 < (mapGet cart pid).getD 0 + q →
      addToCart data cart (some pid) (some q) =
        (.insufficientStock pid (r.shelf_life_count.getD 0) ((mapGet cart pid).getD 0) q,
         cart)) ∧
    ((mapGet cart pid).getD 0 + q ≤ r.shelf_life_count.getD 0 →
      addToCart data cart (some pid) (some q) =
        (.ok (mapSet cart pid ((mapGet cart pid).getD 0 + q)),
         mapSet cart pid ((mapGet cart pid).getD 0 + q)) ∧
      mapGet (addToCart data cart (some pid) (some q)).2 pid =
        some ((mapGet cart pid).getD 0 + q)) := by
  have hcond : ¬ (pid = 0 ∨ q ≤ 0) := by
    push_neg
    exact ⟨hpid, hq⟩
  constructor
  · intro hlt
    simp [addToCart, hcond, hfind, hlt]
  · intro hle
    have hnlt : ¬ (r.shelf_life_count.getD 0 < (mapGet cart pid).getD 0 + q) :=
      not_lt.mpr hle
    have heq : addToCart data cart (some pid) (some q) =
        (.ok (mapSet cart pid ((mapGet cart pid).getD 0 + q)),
         mapSet cart pid ((mapGet cart pid).getD 0 + q)) := by
      simp [addToCart, hcond, hfind, hnlt]
    refine ⟨heq, ?_⟩
    rw [heq]
    exact mapGet_mapSet_self cart pid ((mapGet cart pid).getD 0 + q)

/-- Witness for `addToCart_stock_check`: the spec scenario — stock 2,
cart already holds 2 of product 7, adding 1 more fails with
`InsufficientStock{available: 2, inCart: 2, requested: 1}`. -/
theorem addToCart_stock_check_witness :
    addToCart [⟨some 7, some 2, none, "Coke", 20⟩] [(7, 2)] (some 7) (some 1) =
      (.insufficientStock 7 2 2 1, [(7, 2)]) := by
  have h := (addToCart_stock_check [⟨some 7, some 2, none, "Coke", 20⟩] [(7, 2)] 7 1
      ⟨some 7, some 2, none, "Coke", 20⟩ (by norm_num) (by norm_num)
      (by norm_num [List.find?])).1
      (by norm_num [mapGet, List.find?])
  have hget : (mapGet [((7 : ℚ), (2 : ℚ))] 7).getD 0 = 2 := by
    norm_num [mapGet, List.find?]
  rw [hget] at h
  exact h

/-- Claim C3: on a successful confirm the response, state and events are:
the 200 reply with the checked-out lines, the deducted data file with the
cart cleared, and the trace ending in the submission of the expanded vend
list; each cart product's persisted stock equals its prior live stock
minus the reserved quantity, and for an integer-quantity cart the
submitted vend list is the cart expanded one entry per unit (quantity `n`
of product `p` contributes `n` consecutive entries of `p`). -/
theorem confirm_success_deducts_and_vends (s : Sys)
    (hval : validateCart s.data s.cart = none)
    (hn : (s.cart.map Prod.fst).Nodup) :
    confirmCheckout s =
      (.ok s.cart (vendExpand s.cart).length,
       ⟨deductAll s.data s.cart, []⟩,
       [.readFile, .writeFile, .clearCart, .sendVMC (vendExpand s.cart)]) ∧
    (∀ e ∈ s.cart, stockOf (deductAll s.data s.cart) e.1 = stockOf s.data e.1 - e.2) ∧
    (∀ cartN : List (ℚ × ℕ), s.cart = cartN.map (fun e => (e.1, (e.2 : ℚ))) →
      vendExpand s.cart = cartN.flatMap (fun e => List.replicate e.2 e.1)) := by
  refine ⟨?_, ?_, ?_⟩
  · unfold confirmCheckout
    rw [hval]
  · intro e he
    obtain ⟨i, hi, hle⟩ := validateCart_none_spec s.data s.cart hval e he
    have h1 : stockOf (deductAll s.data s.cart) e.1 =
        stockAt (deductAll s.data s.cart) i := by
      unfold stockOf
      rw [idToIndexGet_deductAll, hi]
    have h2 : stockAt (deductAll s.data s.cart) i = max 0 (stockAt s.data i - e.2) :=
      stockAt_deductAll s.data s.cart hn e.1 e.2 i he hi
    have h3 : stockOf s.data e.1 = stockAt s.data i := by
      unfold stockOf
      rw [hi]
    rw [h1, h2, h3, max_eq_right (by linarith)]
  · intro cartN hcN
    rw [hcN]
    exact vendExpand_natCast cartN

/-- Witness for `confirm_success_deducts_and_vends`: the spec scenario —
cart `{7: 2}` against stock 2 — returns ok, leaves stock 0, clears the
cart and submits `[7, 7]`. -/
theorem confirm_success_deducts_and_vends_witness :
    confirmCheckout ⟨[⟨some 7, some 2, none, "Coke", 20⟩], [(7, 2)]⟩ =
      (.ok [(7, 2)] 2, ⟨[⟨some 7, some 0, none, "Coke", 20⟩], []⟩,
        [.readFile, .writeFile, .clearCart, .sendVMC [7, 7]]) := by
  have h := (confirm_success_deducts_and_vends
      ⟨[⟨some 7, some 2, none, "Coke", 20⟩], [(7, 2)]⟩
      (by norm_num [validateCart, idToIndexGet, idStep, stockAt, List.range_succ])
      (by simp)).1
  rw [h]
  norm_num [vendExpand, jsLoopCount, deductAll, deductStep, applyDeduct,
    idToIndexGet, idStep, stockAt, List.range_succ]
  exact ⟨rfl, rfl⟩

/-- Counterexample to claim C4 as stated: in a successful confirm over the
cart `{8: 1}`, the event trace is read, write, **clear cart**, then the
dispense-submission attempt — the cart is cleared strictly before the
submission is attempted, so the claimed ordering is violated. -/
theorem cart_cleared_before_submission :
    (confirmCheckout ⟨[⟨some 8, some 1, none, "Juice", 30⟩], [(8, 1)]⟩).2.2 =
      [.readFile, .writeFile, .clearCart, .sendVMC [8]] ∧
    clearedOnlyAfterSend
      (confirmCheckout ⟨[⟨some 8, some 1, none, "Juice", 30⟩], [(8, 1)]⟩).2.2 = false := by
  constructor <;>
    norm_num [confirmCheckout, validateCart, idToIndexGet, idStep, stockAt,
      List.range_succ, vendExpand, jsLoopCount, clearedOnlyAfterSend,
      clearedOnlyAfterSendAux]

/-- Claim C4, amended: within every successful `confirmCheckout` execution
the cart is cleared *before* (not after) the dispense submission is
attempted; the submission uses the vend list expanded from the pre-clear
cart snapshot, so the clear does not change what is submitted. -/
theorem clear_precedes_submission_with_snapshot (s : Sys)
    (hval : validateCart s.data s.cart = none) :
    (confirmCheckout s).2.2 =
      [.readFile, .writeFile, .clearCart, .sendVMC (vendExpand s.cart)] := by
  unfold confirmCheckout
  rw [hval]

/-- Witness for `clear_precedes_submission_with_snapshot` on the cart
`{2: 3}` against stock 4. -/
theorem clear_precedes_submission_witness :
    (confirmCheckout ⟨[⟨some 2, some 4, none, "Tea", 18⟩], [(2, 3)]⟩).2.2 =
      [.readFile, .writeFile, .clearCart, .sendVMC (vendExpand [(2, 3)])] :=
  clear_precedes_submission_with_snapshot ⟨[⟨some 2, some 4, none, "Tea", 18⟩], [(2, 3)]⟩
    (by norm_num [validateCart, idToIndexGet, idStep, stockAt, List.range_succ])

/-- Claim C10: on a successful confirm, the stock value written for every
cart product is `max 0 (previous stock - reserved quantity)` — the
deduction clamps at zero, so the persisted stock of a deducted product is
never negative. -/
theorem confirm_deduction_clamped (s : Sys)
    (hval : validateCart s.data s.cart = none)
    (hn : (s.cart.map Prod.fst).Nodup) :
    ∀ e ∈ s.cart,
      stockOf (confirmCheckout s).2.1.data e.1 = max 0 (stockOf s.data e.1 - e.2) ∧
      0 ≤ stockOf (confirmCheckout s).2.1.data e.1 := by
  intro e he
  have hdata : (confirmCheckout s).2.1.data = deductAll s.data s.cart := by
    unfold confirmCheckout
    rw [hval]
  obtain ⟨i, hi, hle⟩ := validateCart_none_spec s.data s.cart hval e he
  have h1 : stockOf (deductAll s.data s.cart) e.1 =
      stockAt (deductAll s.data s.cart) i := by
    unfold stockOf
    rw [idToIndexGet_deductAll, hi]
  have h2 := stockAt_deductAll s.data s.cart hn e.1 e.2 i he hi
  have h3 : stockOf s.data e.1 = stockAt s.data i := by
    unfold stockOf
    rw [hi]
  rw [hdata, h1, h2, h3]
  exact ⟨rfl, le_max_left 0 _⟩

/-- Witness for `confirm_deduction_clamped`: confirming the cart `{3: 2}`
against stock 5 writes `max 0 (5 - 2)` for product 3, a non-negative
value. -/
theorem confirm_deduction_clamped_witness :
    stockOf (confirmCheckout ⟨[⟨some 3, some 5, none, "Water", 12⟩], [(3, 2)]⟩).2.1.data 3 =
      max 0 (stockOf [⟨some 3, some 5, none, "Water", 12⟩] 3 - 2) ∧
    0 ≤ stockOf (confirmCheckout ⟨[⟨some 3, some 5, none, "Water", 12⟩], [(3, 2)]⟩).2.1.data 3 :=
  confirm_deduction_clamped ⟨[⟨some 3, some 5, none, "Water", 12⟩], [(3, 2)]⟩
    (by norm_num [validateCart, idToIndexGet, idStep, stockAt, List.range_succ])
    (by simp) (3, 2) (List.mem_singleton.mpr rfl)

/-- Claim C6: while the Vend Controller is in the `vending` state, every
well-formed dispense request — over the WebSocket as well as over
`POST /vend` — is rejected with a Busy reply reporting the in-flight item
list, and the controller state (status, items, startTime) is unchanged;
hence a second cycle can never start while one is active. -/
theorem vend_busy_rejected (st : VmcState) (its : List ℚ) (now : ℕ)
    (hv : st.status = .vending) (hne : its ≠ []) :
    handleVendWS st (some its) now = (.busy st.currentItems, st) ∧
    handleVendHTTP st (some its) now = (.busy st.currentItems, st) := by
  have h : its.isEmpty = false := by simpa [List.isEmpty_iff] using hne
  exact ⟨by simp [handleVendWS, h, hv], by simp [handleVendHTTP, h, hv]⟩

/-- Witness for `vend_busy_rejected`: a vend of `[1]` against a controller
mid-cycle on `[3]` is rejected on both paths with `Busy [3]`. -/
theorem vend_busy_rejected_witness :
    handleVendWS ⟨.vending, [3], some 0⟩ (some [1]) 5 =
      (.busy [3], ⟨.vending, [3], some 0⟩) ∧
    handleVendHTTP ⟨.vending, [3], some 0⟩ (some [1]) 5 =
      (.busy [3], ⟨.vending, [3], some 0⟩) :=
  vend_busy_rejected ⟨.vending, [3], some 0⟩ [1] 5 rfl (by simp)

/-- Claim C7: `prepareCheckout` mutates neither the cart nor any stock
(the handler returns the system state unchanged), and two calls with the
same cart and catalog return identical line items and identical total —
only the `orderId` may differ with the timestamp. -/
theorem prepare_pure_and_deterministic (products : List JsonProduct) (s : Sys)
    (c1 c2 : PrepareCall) :
    (prepareAt products s c1).2 = s ∧
    (prepareAt products s c2).2 = s ∧
    (prepareAt products s c1).1.items = (prepareAt products s c2).1.items ∧
    (prepareAt products s c1).1.total = (prepareAt products s c2).1.total :=
  ⟨rfl, rfl, rfl, rfl⟩

/-- Counterexample to claim C9 as stated: two distinct prepare calls that
observe the same `Date.now()` millisecond (rapid succession) return the
same `orderId`. -/
theorem prepare_orderId_not_unique :
    (⟨0, 1000⟩ : PrepareCall) ≠ ⟨1, 1000⟩ ∧
    (prepareAt [] ⟨[], []⟩ ⟨0, 1000⟩).1.orderId =
      (prepareAt [] ⟨[], []⟩ ⟨1, 1000⟩).1.orderId :=
  ⟨by simp, rfl⟩

/-- Claim C9, amended: the `orderId` is derived from the call's
`Date.now()` timestamp alone (`order_<ms>`), so any two prepare calls that
observe the same millisecond — however distinct — receive the same
`orderId`; uniqueness per call does not hold. -/
theorem prepare_orderId_from_timestamp (products : List JsonProduct) (s : Sys)
    (c1 c2 : PrepareCall) (h : c1.now = c2.now) :
    (prepareAt products s c1).1.orderId = (prepareAt products s c2).1.orderId := by
  simp [prepareAt, prepareCheckout, h]

/-- Witness for `prepare_orderId_from_timestamp` at calls 0 and 7, both in
millisecond 123. -/
theorem prepare_orderId_from_timestamp_witness :
    (prepareAt [] ⟨[], []⟩ ⟨0, 123⟩).1.orderId =
      (prepareAt [] ⟨[], []⟩ ⟨7, 123⟩).1.orderId :=
  prepare_orderId_from_timestamp [] ⟨[], []⟩ ⟨0, 123⟩ ⟨7, 123⟩ rfl

/-- Counterexample to claim C8 as stated: the quantity `3/2` is not an
integer (its reduced denominator is `2`), yet `addToCart` accepts it — the
source validates only `quantity > 0` and finiteness, not integrality — and
the cart is modified. -/
theorem addToCart_nonintegral_accepted :
    ((3 : ℚ)/2).den ≠ 1 ∧ (0 : ℚ) < 3/2 ∧
    addToCart [⟨some 4, some 10, none, "Chips", 15⟩] [] (some 4) (some (3/2)) =
      (.ok [(4, 3/2)], [(4, 3/2)]) := by
  refine ⟨by norm_num, by norm_num, ?_⟩
  norm_num [addToCart, mapGet, mapSet, List.find?]

/-- Claim C8, amended: `addToCart` rejects a call with the 400 validation
error, leaving the cart untouched, whenever the quantity is absent,
non-numeric, zero or negative; a positive non-integer quantity passes the
validation (only `quantity > 0` is checked). -/
theorem addToCart_rejects_nonpositive (data : List ProdRecord) (cart : Cart)
    (productId quantity : Option ℚ)
    (hbad : ∀ q, quantity = some q → q ≤ 0) :
    addToCart data cart productId quantity = (.invalidRequest, cart) := by
  cases productId with
  | none => rfl
  | some pid =>
    cases quantity with
    | none => rfl
    | some q => simp [addToCart, hbad q rfl]

/-- Witness for `addToCart_rejects_nonpositive`: quantity `-1` is rejected
and the cart `[(2, 1)]` is unchanged. -/
theorem addToCart_rejects_nonpositive_witness :
    addToCart [] [(2, 1)] (some 5) (some (-1)) = (.invalidRequest, [(2, 1)]) :=
  addToCart_rejects_nonpositive [] [(2, 1)] (some 5) (some (-1))
    (by intro q hq; injection hq with h; rw [← h]; norm_num)

/-- Counterexample to claim C5 as stated: a product whose `active` field is
`false` but which has stock `5` is accepted into the cart — the backend
never reads the `active` field. -/
theorem inactive_product_added :
    (⟨some 5, some 5, some false, "Soda", 10⟩ : ProdRecord).active = some false ∧
    addToCart [⟨some 5, some 5, some false, "Soda", 10⟩] [] (some 5) (some 1) =
      (.ok [(5, 1)], [(5, 1)]) := by
  refine ⟨rfl, ?_⟩
  norm_num [addToCart, mapGet, mapSet, List.find?]

/-- Claim C5, amended: no purchasability check consults the `active` flag —
the reply and resulting cart of `addToCart` are invariant under arbitrary
rewriting of every record's `active` field, so an inactive product with
sufficient stock is purchasable exactly like an active one. -/
theorem addToCart_ignores_active (data : List ProdRecord) (cart : Cart)
    (productId quantity : Option ℚ) (g : ProdRecord → Option Bool) :
    addToCart (data.map (fun r => { r with active := g r })) cart productId quantity =
      addToCart data cart productId quantity := by
  cases productId with
  | none => rfl
  | some pid =>
    cases quantity with
    | none => rfl
    | some q =>
      simp only [addToCart]
      split
      · rfl
      · rw [List.find?_map]
        rcases hfind : data.find? (fun r => decide (r.product_id = some pid)) with _ | r
        · simp [Function.comp_def, hfind]
        · simp [Function.comp_def, hfind]

end Wendor
